import Mathlib

/-!
Shallow embedding of `src/text2ipa.py` (an English-text → IPA converter).

Strings are modelled as `List Char` (`Str`).  Python builtins used by the
source are modelled explicitly and faithfully for the ASCII domain the
program works over:
  * `str.split()` (no argument: split on whitespace runs, no empty tokens)
    is `pysplit`;
  * `str.strip()` is `strip`;
  * `str.lower()` is `pylower` (per-character ASCII lowercasing, which is
    exact on the ASCII inputs the program handles);
  * `sep.join(xs)` is `joinSep sep xs`;
  * `c.isdigit()` is `Char.isDigit` (ASCII digits).

The two external collaborators are parameters:
  * the primary converter `eng_to_ipa.convert` is an
    `Option (Str → Option Str)` — the outer `Option` models the module
    being importable or not, the inner `Option` models the call raising
    (`none`) or returning a string (`some`);
  * the dictionary collaborator `pronouncing.phones_for_word` is an
    `Option (Str → List Str)` — `none` models the module being absent.

Python exceptions raised by the program itself (`RuntimeError` in
`words_to_ipa_with_pronouncing`) are modelled with `Except Str`.
The `debug` flag only writes to stderr and is omitted.
-/

abbrev Str := List Char

/-- Python whitespace for `str.split()` / `str.strip()`:
space, tab, newline, carriage return, vertical tab, form feed. -/
def isWS (c : Char) : Bool :=
  c = ' ' || c = '\t' || c = '\n' || c = '\r' || c = '\x0b' || c = '\x0c'

/-- One step of `str.split()` processed right-to-left: a whitespace
character closes the current token, any other character is prepended to it. -/
def splitStep (c : Char) (acc : List Str) : List Str :=
  if isWS c then [] :: acc
  else
    match acc with
    | [] => [[c]]
    | t :: ts => (c :: t) :: ts

/-- `str.split()` including the empty tokens produced by adjacent /
leading / trailing whitespace. -/
def pysplitAux (l : Str) : List Str := l.foldr splitStep [[]]

/-- Python `str.split()` with no argument: split on runs of whitespace,
returning no empty tokens. -/
def pysplit (l : Str) : List Str := (pysplitAux l).filter (fun t => t ≠ [])

/-- Python `str.strip()`: remove leading and trailing whitespace. -/
def strip (l : Str) : Str := ((l.dropWhile isWS).reverse.dropWhile isWS).reverse

/-- Python `str.lower()` (ASCII-exact; the program's symbols and words are
ASCII). -/
def pylower (l : Str) : Str := l.map Char.toLower

/-- Python `sep.join(xs)`. -/
def joinSep (sep : Str) : List Str → Str
  | [] => []
  | [x] => x
  | x :: xs => x ++ sep ++ joinSep sep xs

/-- Python `dict.get(key)` over an association list (the dict literal has
no duplicate keys, so first-match lookup is exact). -/
def tableGet : List (Str × Str) → Str → Option Str
  | [], _ => none
  | (k, v) :: rest, key => if key = k then some v else tableGet rest key

/-- The `ARPABET_TO_IPA` dict of `src/text2ipa.py` (lines 36–50). -/
def ARPABET_TO_IPA : List (Str × Str) := [
  -- Consonants
  ("P".data, "p".data), ("B".data, "b".data), ("T".data, "t".data),
  ("D".data, "d".data), ("K".data, "k".data), ("G".data, "ɡ".data),
  ("CH".data, "t͡ʃ".data), ("JH".data, "d͡ʒ".data),
  ("F".data, "f".data), ("V".data, "v".data), ("TH".data, "θ".data),
  ("DH".data, "ð".data),
  ("S".data, "s".data), ("Z".data, "z".data), ("SH".data, "ʃ".data),
  ("ZH".data, "ʒ".data),
  ("HH".data, "h".data), ("M".data, "m".data), ("N".data, "n".data),
  ("NG".data, "ŋ".data),
  ("L".data, "l".data), ("R".data, "ɹ".data), ("Y".data, "j".data),
  ("W".data, "w".data),
  -- Vowels (stress digits stripped)
  ("AA".data, "ɑ".data), ("AE".data, "æ".data), ("AH".data, "ʌ".data),
  ("AO".data, "ɔ".data), ("AW".data, "aʊ".data), ("AY".data, "aɪ".data),
  ("EH".data, "ɛ".data), ("ER".data, "ɝ".data), ("EY".data, "eɪ".data),
  ("IH".data, "ɪ".data), ("IY".data, "i".data),
  ("OW".data, "oʊ".data), ("OY".data, "ɔɪ".data),
  ("UH".data, "ʊ".data), ("UW".data, "u".data)]

/-- `_arpabet_symbol_to_ipa` (lines 52–55): strip all digit characters,
look the base up in the table, fall back to the lowercased base.
(The source binds `base` once; it is inlined here.) -/
def _arpabet_symbol_to_ipa (sym : Str) : Str :=
  match tableGet ARPABET_TO_IPA (sym.filter (fun c => !c.isDigit)) with
  | some v => v
  | none => pylower (sym.filter (fun c => !c.isDigit))

/-- `arpabet_list_to_ipa` (lines 57–58). -/
def arpabet_list_to_ipa (arpa : List Str) : Str :=
  joinSep [' '] (arpa.map _arpabet_symbol_to_ipa)

/-- The per-word loop body of `words_to_ipa_with_pronouncing`
(lines 63–73): `out_words` built in input order. -/
def words_to_ipa_loop (pr : Str → List Str) : List Str → List Str
  | [] => []
  | w :: ws =>
    (match pr (pylower w) with
     | p :: _ => arpabet_list_to_ipa (pysplit p)
     | [] => w) :: words_to_ipa_loop pr ws

/-- `words_to_ipa_with_pronouncing` (lines 60–74).  A `none` collaborator
raises `RuntimeError` (modelled as `Except.error`). -/
def words_to_ipa_with_pronouncing (pronouncing : Option (Str → List Str))
    (words : List Str) : Except Str Str :=
  match pronouncing with
  | none =>
    Except.error ("Module 'pronouncing' not available and eng_to_ipa failed.".data)
  | some pr => Except.ok (joinSep [' '] (words_to_ipa_loop pr words))

/-- `text.replace("\n", " ")` applied character-wise (line 90). -/
def nlToSpace (c : Char) : Char := if c = '\n' then ' ' else c

/-- Line 90: `[w for w in text.replace("\n", " ").split() if w]`. -/
def wordsOf (t : Str) : List Str :=
  (pysplit (t.map nlToSpace)).filter (fun w => w ≠ [])

/-- Lines 81–88: the primary-converter attempt.  Returns `some` of the
trimmed result exactly when the module is importable, the call returns
(rather than raises), and the result is non-empty with non-empty strip
(`if res and res.strip()`); `none` means "proceed to the fallback". -/
def primaryResult (ipaConv : Option (Str → Option Str)) (t : Str) : Option Str :=
  match ipaConv with
  | some convert =>
    match convert t with
    | some res => if res ≠ [] ∧ strip res ≠ [] then some (strip res) else none
    | none => none
  | none => none

/-- `text_to_ipa` (lines 76–93). -/
def text_to_ipa (ipaConv : Option (Str → Option Str))
    (pronouncing : Option (Str → List Str)) (text : Str) (sep : Str) :
    Except Str Str :=
  if strip text = [] then Except.ok []
  else
    match primaryResult ipaConv (strip text) with
    | some r => Except.ok r
    | none =>
      match words_to_ipa_with_pronouncing pronouncing (wordsOf (strip text)) with
      | Except.ok s => Except.ok (joinSep sep (pysplit s))
      | Except.error e => Except.error e

/-- Outcome of `main`'s argument dispatch (lines 103–110):
`helpExit n` models `parser.print_help(sys.stderr); sys.exit(n)`. -/
inductive CliOutcome where
  | helpExit (code : Nat)
  | textMode (phrase : Str)
  | fileMode (path : Str)
  deriving DecidableEq

/-- Python truthiness of an `Optional[str]` argparse value:
`None` and `""` are falsy. -/
def pyFalsyOpt : Option Str → Bool
  | none => true
  | some s => s.isEmpty

/-- The dispatch logic of `main` (lines 103–110): usage error when neither
`--text` nor `--file` is truthy, else text mode when `--text` is truthy,
else file mode. -/
def main_route (textArg fileArg : Option Str) : CliOutcome :=
  if pyFalsyOpt textArg && pyFalsyOpt fileArg then CliOutcome.helpExit 2
  else if !(pyFalsyOpt textArg) then CliOutcome.textMode (textArg.getD [])
  else CliOutcome.fileMode (fileArg.getD [])

deriving instance DecidableEq for Except

/-- Test dictionary: maps `"cat"` to the single candidate `"K AE1 T"`,
everything else unknown. -/
def dictCat : Str → List Str :=
  fun w => if w = ("cat".data) then [("K AE1 T".data)] else []

/-! ### Lemmas about the modelled Python builtins -/

theorem pysplitAux_cons (c : Char) (l : Str) :
    pysplitAux (c :: l) = splitStep c (pysplitAux l) := rfl

theorem splitStep_ws {c : Char} (h : isWS c = true) (acc : List Str) :
    splitStep c acc = [] :: acc := by
  simp [splitStep, h]

theorem splitStep_notWS {c : Char} (h : isWS c = false) (t : Str)
    (ts : List Str) : splitStep c (t :: ts) = (c :: t) :: ts := by
  simp [splitStep, h]

theorem joinSep_cons₂ (sep x y : Str) (t : List Str) :
    joinSep sep (x :: y :: t) = x ++ sep ++ joinSep sep (y :: t) := rfl

theorem pysplitAux_ne_nil (l : Str) : pysplitAux l ≠ [] := by
  induction l with
  | nil => simp [pysplitAux]
  | cons c l ih =>
    rw [pysplitAux_cons]
    cases h : isWS c with
    | true => simp [splitStep_ws h]
    | false =>
      cases hA : pysplitAux l with
      | nil => exact absurd hA ih
      | cons t ts => simp [splitStep_notWS h]

theorem foldr_splitStep_shift (a : Str) (X : List Str) :
    a.foldr splitStep ([] :: X) = a.foldr splitStep [[]] ++ X := by
  induction a with
  | nil => rfl
  | cons c a ih =>
    simp only [List.foldr_cons, ih]
    show splitStep c (pysplitAux a ++ X) = splitStep c (pysplitAux a) ++ X
    cases h : isWS c with
    | true => rw [splitStep_ws h, splitStep_ws h]; rfl
    | false =>
      obtain ⟨t, ts, hA⟩ := List.exists_cons_of_ne_nil (pysplitAux_ne_nil a)
      rw [hA, List.cons_append, splitStep_notWS h, splitStep_notWS h]
      rfl

theorem pysplitAux_append_ws (a b : Str) :
    pysplitAux (a ++ ' ' :: b) = pysplitAux a ++ pysplitAux b := by
  show (a ++ ' ' :: b).foldr splitStep [[]] = _
  rw [List.foldr_append]
  show a.foldr splitStep (splitStep ' ' (pysplitAux b)) = _
  rw [splitStep_ws (by decide)]
  exact foldr_splitStep_shift a (pysplitAux b)

theorem pysplit_append_ws (a b : Str) :
    pysplit (a ++ ' ' :: b) = pysplit a ++ pysplit b := by
  unfold pysplit
  rw [pysplitAux_append_ws, List.filter_append]

theorem pysplit_joinSep_space (xs : List Str) :
    pysplit (joinSep [' '] xs) = xs.flatMap pysplit := by
  induction xs with
  | nil => rfl
  | cons x xs ih =>
    cases xs with
    | nil => show pysplit x = pysplit x ++ [] ; rw [List.append_nil]
    | cons y t =>
      rw [joinSep_cons₂,
          show x ++ [' '] ++ joinSep [' '] (y :: t)
             = x ++ ' ' :: joinSep [' '] (y :: t) from by
            rw [List.append_assoc]; rfl,
          pysplit_append_ws, ih]
      simp [List.flatMap_cons]

theorem pysplitAux_all_notWS {t : Str} (h : ∀ c ∈ t, isWS c = false) :
    pysplitAux t = [t] := by
  induction t with
  | nil => rfl
  | cons c t ih =>
    rw [pysplitAux_cons, ih (fun d hd => h d (List.mem_cons_of_mem c hd)),
        splitStep, if_neg]
    simp [h c (List.mem_cons_self c t)]

theorem pysplit_singleton {t : Str} (h : ∀ c ∈ t, isWS c = false)
    (hne : t ≠ []) : pysplit t = [t] := by
  unfold pysplit
  rw [pysplitAux_all_notWS h]
  simp [hne]

theorem pysplitAux_tokens (l : Str) :
    ∀ t ∈ pysplitAux l, ∀ c ∈ t, isWS c = false := by
  induction l with
  | nil =>
    intro t ht
    simp only [pysplitAux, List.foldr_nil, List.mem_singleton] at ht
    subst ht
    simp
  | cons c l ih =>
    intro t ht
    rw [pysplitAux_cons] at ht
    cases h : isWS c with
    | true =>
      rw [splitStep_ws h] at ht
      rcases List.mem_cons.mp ht with h1 | h1
      · subst h1; simp
      · exact ih t h1
    | false =>
      cases hA : pysplitAux l with
      | nil => exact absurd hA (pysplitAux_ne_nil l)
      | cons t0 ts =>
        rw [hA, splitStep_notWS h] at ht
        rcases List.mem_cons.mp ht with h1 | h1
        · subst h1
          intro d hd
          rcases List.mem_cons.mp hd with h2 | h2
          · subst h2; exact h
          · exact ih t0 (hA ▸ List.mem_cons_self t0 ts) d h2
        · exact ih t (hA ▸ List.mem_cons_of_mem t0 h1)

theorem pysplit_tokens {l t : Str} (ht : t ∈ pysplit l) :
    t ≠ [] ∧ ∀ c ∈ t, isWS c = false := by
  unfold pysplit at ht
  rw [List.mem_filter] at ht
  exact ⟨by simpa using ht.2, pysplitAux_tokens l t ht.1⟩

theorem strip_eq_nil_of_ws {l : Str} (h : ∀ c ∈ l, isWS c = true) :
    strip l = [] := by
  unfold strip
  rw [List.dropWhile_eq_nil_iff.mpr h]
  rfl

theorem ne_nil_of_strip_ne_nil {l : Str} (h : strip l ≠ []) : l ≠ [] :=
  fun e => h (by rw [e]; rfl)

theorem isWS_toLower_eq_false {c : Char} (h : isWS c = false) :
    isWS c.toLower = false := by
  simp only [Char.toLower]
  split
  · next hc =>
    obtain ⟨h1, h2⟩ := hc
    generalize hg : Char.toNat c = n at h1 h2
    interval_cases n <;> decide
  · exact h

theorem tableGet_mem {tbl : List (Str × Str)} {k v : Str}
    (h : tableGet tbl k = some v) : (k, v) ∈ tbl := by
  induction tbl with
  | nil => simp [tableGet] at h
  | cons kv rest ih =>
    obtain ⟨k0, v0⟩ := kv
    rw [tableGet] at h
    split at h
    · next he =>
      cases h
      exact he ▸ List.mem_cons_self _ _
    · exact List.mem_cons_of_mem _ (ih h)

/-- Every IPA value in the symbol table is non-empty and whitespace-free. -/
theorem table_values_ok :
    ∀ kv ∈ ARPABET_TO_IPA, kv.2 ≠ [] ∧ ∀ c ∈ kv.2, isWS c = false := by
  decide

theorem arpa_token_notWS {s : Str} (hs : ∀ c ∈ s, isWS c = false) :
    ∀ c ∈ _arpabet_symbol_to_ipa s, isWS c = false := by
  rw [_arpabet_symbol_to_ipa]
  split
  · next v hv =>
    exact (table_values_ok _ (tableGet_mem hv)).2
  · intro c hc
    rw [pylower, List.mem_map] at hc
    obtain ⟨d, hd, rfl⟩ := hc
    exact isWS_toLower_eq_false (hs d (List.mem_of_mem_filter hd))

theorem arpa_token_ne_nil {s : Str}
    (hne : s.filter (fun c => !c.isDigit) ≠ []) :
    _arpabet_symbol_to_ipa s ≠ [] := by
  rw [_arpabet_symbol_to_ipa]
  split
  · next v hv =>
    exact (table_values_ok _ (tableGet_mem hv)).1
  · rw [pylower]
    simpa using hne

theorem words_to_ipa_loop_eq_map (pr : Str → List Str) (ws : List Str) :
    words_to_ipa_loop pr ws = ws.map (fun w =>
      match pr (pylower w) with
      | p :: _ => arpabet_list_to_ipa (pysplit p)
      | [] => w) := by
  induction ws with
  | nil => rfl
  | cons w ws ih => rw [words_to_ipa_loop, List.map_cons, ih]

theorem flatMap_pysplit_singleton {L : List Str}
    (h : ∀ t ∈ L, pysplit t = [t]) : L.flatMap pysplit = L := by
  induction L with
  | nil => rfl
  | cons t L ih =>
    rw [List.flatMap_cons, h t (List.mem_cons_self t L),
        ih (fun u hu => h u (List.mem_cons_of_mem t hu))]
    rfl

theorem flatMap_congr_mem {L : List Str} {f g : Str → List Str}
    (h : ∀ t ∈ L, f t = g t) : L.flatMap f = L.flatMap g := by
  induction L with
  | nil => rfl
  | cons t L ih =>
    rw [List.flatMap_cons, List.flatMap_cons, h t (List.mem_cons_self t L),
        ih (fun u hu => h u (List.mem_cons_of_mem t hu))]

/-- The per-word token list the fallback re-delimiting actually operates
on: a known word contributes one token per translated ARPAbet phone of
its first candidate pronunciation, an unknown word contributes itself. -/
def wordTokens (pr : Str → List Str) (w : Str) : List Str :=
  match pr (pylower w) with
  | [] => [w]
  | p :: _ => (pysplit p).map _arpabet_symbol_to_ipa

theorem pysplit_wordOut {pr : Str → List Str} {w : Str}
    (hw1 : w ≠ []) (hw2 : ∀ c ∈ w, isWS c = false)
    (H : ∀ p ∈ (pr (pylower w)).take 1, ∀ s ∈ pysplit p,
           s.filter (fun c => !c.isDigit) ≠ []) :
    pysplit (match pr (pylower w) with
             | p :: _ => arpabet_list_to_ipa (pysplit p)
             | [] => w) = wordTokens pr w := by
  rw [wordTokens]
  cases hp : pr (pylower w) with
  | nil => exact pysplit_singleton hw2 hw1
  | cons p ps =>
    show pysplit (arpabet_list_to_ipa (pysplit p)) = (pysplit p).map _arpabet_symbol_to_ipa
    rw [arpabet_list_to_ipa, pysplit_joinSep_space]
    apply flatMap_pysplit_singleton
    intro t ht
    rw [List.mem_map] at ht
    obtain ⟨s, hs, rfl⟩ := ht
    have hsw := (pysplit_tokens hs).2
    have hp1 : p ∈ (pr (pylower w)).take 1 := by rw [hp]; simp
    exact pysplit_singleton (arpa_token_notWS hsw)
      (arpa_token_ne_nil (H p hp1 s hs))

/-! ### Claim theorems -/

/-- C3: for every ARPAbet symbol carrying a stress digit 0, 1 or 2, the
symbol translator returns exactly the same IPA string as for the
digit-free base symbol. -/
theorem C3_stress_digit_invariant (base : Str) (d : Char)
    (h : d ∈ (['0', '1', '2'] : List Char)) :
    _arpabet_symbol_to_ipa (base ++ [d]) = _arpabet_symbol_to_ipa base := by
  have hd : (!d.isDigit) = false := by
    simp only [List.mem_cons, List.not_mem_nil, or_false] at h
    rcases h with rfl | rfl | rfl <;> decide
  have h2 : (base ++ [d]).filter (fun c => !c.isDigit)
      = base.filter (fun c => !c.isDigit) := by
    rw [List.filter_append]
    simp [List.filter_cons, hd]
  rw [_arpabet_symbol_to_ipa, _arpabet_symbol_to_ipa, h2]

theorem C3_witness :
    _arpabet_symbol_to_ipa ("AE1".data) = _arpabet_symbol_to_ipa ("AE".data) ∧
    _arpabet_symbol_to_ipa ("AE".data) = ("æ".data) :=
  ⟨C3_stress_digit_invariant ("AE".data) '1' (by decide), by decide⟩

/-- C4, counterexample: `"Q1"` is not a key of the symbol table, yet the
translator returns `"q"` (the lowercased digit-stripped base), not the
lowercased input `"q1"`. -/
theorem C4_counterexample :
    tableGet ARPABET_TO_IPA ("Q1".data) = none ∧
    _arpabet_symbol_to_ipa ("Q1".data) ≠ pylower ("Q1".data) := by
  decide

/-- C4, amended: for every input symbol whose digit-stripped base form is
not present in the symbol table, the translator returns that digit-stripped
base form lowercased (digits are removed before lowercasing, so an unknown
symbol containing digits is not returned as the lowercased full input). -/
theorem C4_unknown_symbol_lowercased_base (sym : Str)
    (h : tableGet ARPABET_TO_IPA (sym.filter (fun c => !c.isDigit)) = none) :
    _arpabet_symbol_to_ipa sym = pylower (sym.filter (fun c => !c.isDigit)) := by
  rw [_arpabet_symbol_to_ipa, h]

theorem C4_witness :
    tableGet ARPABET_TO_IPA (("Q1".data).filter (fun c => !c.isDigit)) = none ∧
    _arpabet_symbol_to_ipa ("Q1".data)
      = pylower (("Q1".data).filter (fun c => !c.isDigit)) :=
  ⟨by decide, C4_unknown_symbol_lowercased_base ("Q1".data) (by decide)⟩

/-- C9: the symbol translator is total and pure — for every input string
it returns a result (no error, no side effect), which is either the table
entry of the digit-stripped base or that base lowercased. -/
theorem C9_total_characterization (sym : Str) :
    (∃ v, tableGet ARPABET_TO_IPA (sym.filter (fun c => !c.isDigit)) = some v ∧
          _arpabet_symbol_to_ipa sym = v) ∨
    (tableGet ARPABET_TO_IPA (sym.filter (fun c => !c.isDigit)) = none ∧
     _arpabet_symbol_to_ipa sym = pylower (sym.filter (fun c => !c.isDigit))) := by
  cases h : tableGet ARPABET_TO_IPA (sym.filter (fun c => !c.isDigit)) with
  | some v => exact Or.inl ⟨v, rfl, by rw [_arpabet_symbol_to_ipa, h]⟩
  | none => exact Or.inr ⟨rfl, by rw [_arpabet_symbol_to_ipa, h]⟩

theorem C9_witness :
    (∃ v, tableGet ARPABET_TO_IPA (("AE1".data).filter (fun c => !c.isDigit)) = some v ∧
          _arpabet_symbol_to_ipa ("AE1".data) = v) ∨
    (tableGet ARPABET_TO_IPA (("AE1".data).filter (fun c => !c.isDigit)) = none ∧
     _arpabet_symbol_to_ipa ("AE1".data)
       = pylower (("AE1".data).filter (fun c => !c.isDigit))) :=
  C9_total_characterization ("AE1".data)

/-- C8: the word-level fallback converter raises exactly when the
dictionary collaborator is unavailable; when it raises, no conversion
result is produced. -/
theorem C8_error_iff_module_missing (pronOpt : Option (Str → List Str))
    (ws : List Str) :
    (∃ e, words_to_ipa_with_pronouncing pronOpt ws = Except.error e) ↔
      pronOpt = none := by
  cases pronOpt with
  | none => simp [words_to_ipa_with_pronouncing]
  | some pr => simp [words_to_ipa_with_pronouncing]

theorem C8_witness :
    ∃ e, words_to_ipa_with_pronouncing none [("cat".data)] = Except.error e :=
  (C8_error_iff_module_missing none [("cat".data)]).mpr rfl

/-- C5: the fallback converter maps each word independently — a word with
no dictionary candidates is emitted verbatim (case preserved, though the
lookup used its lowercased form), a word with candidates is rendered as
its first candidate split into ARPAbet symbols, each translated, joined
with single spaces — and joins the per-word results with single spaces. -/
theorem C5_fallback_per_word (pr : Str → List Str) (ws : List Str) :
    words_to_ipa_with_pronouncing (some pr) ws =
      Except.ok (joinSep [' '] (ws.map (fun w =>
        match pr (pylower w) with
        | [] => w
        | p :: _ => joinSep [' '] ((pysplit p).map _arpabet_symbol_to_ipa)))) := by
  rw [words_to_ipa_with_pronouncing, words_to_ipa_loop_eq_map]
  refine congrArg Except.ok (congrArg (joinSep [' ']) (List.map_congr_left ?_))
  intro w _
  cases h : pr (pylower w) with
  | nil => simp [h]
  | cons p ps => simp [h, arpabet_list_to_ipa]

theorem C5_witness :
    words_to_ipa_with_pronouncing (some dictCat) [("cat".data), ("dog".data)] =
      Except.ok ("k æ t dog".data) :=
  (C5_fallback_per_word dictCat [("cat".data), ("dog".data)]).trans (by decide)

/-- C6: an empty or whitespace-only phrase yields the empty string, with
no error, for every state of the primary converter, of the dictionary
collaborator, and every separator (so neither collaborator is consulted). -/
theorem C6_blank_phrase_empty_result (ipaConv : Option (Str → Option Str))
    (pronOpt : Option (Str → List Str)) (text sep : Str)
    (h : ∀ c ∈ text, isWS c = true) :
    text_to_ipa ipaConv pronOpt text sep = Except.ok [] := by
  rw [text_to_ipa, if_pos (strip_eq_nil_of_ws h)]

theorem C6_witness :
    text_to_ipa (some (fun _ => some ("x".data))) none (" \x0b\n ".data)
      ("-".data) = Except.ok [] :=
  C6_blank_phrase_empty_result (some (fun _ => some ("x".data))) none
    (" \x0b\n ".data) ("-".data) (by decide)

/-- C2, counterexample: a primary converter that returns the non-empty
string `" "` does not win — `if res and res.strip()` (line 84) rejects
it, so the fallback IS invoked (its rendering `"hi"` is returned when the
dictionary is present, and the missing-module error is raised when it is
absent) and the trimmed primary output `""` is not returned. -/
theorem C2_counterexample :
    (" ".data : Str) ≠ [] ∧
    text_to_ipa (some (fun _ => some (" ".data))) (some dictCat)
      ("hi".data) ([' ']) = Except.ok ("hi".data) ∧
    ("hi".data : Str) ≠ strip (" ".data) ∧
    text_to_ipa (some (fun _ => some (" ".data))) none ("hi".data) ([' '])
      = Except.error
          ("Module 'pronouncing' not available and eng_to_ipa failed.".data) := by
  decide

/-- C2, amended: when the primary converter is available and, on the
trimmed non-blank phrase, returns a string that is non-empty after
trimming, `text_to_ipa` returns exactly that output trimmed, for every
state of the fallback dictionary (never invoked) and every separator
(result is unchanged). -/
theorem C2_primary_wins (convert : Str → Option Str)
    (pronOpt : Option (Str → List Str)) (text sep res : Str)
    (h1 : strip text ≠ [])
    (h2 : convert (strip text) = some res)
    (h3 : strip res ≠ []) :
    text_to_ipa (some convert) pronOpt text sep = Except.ok (strip res) := by
  have hres : res ≠ [] := fun e => h3 (by rw [e]; rfl)
  have hp : primaryResult (some convert) (strip text) = some (strip res) := by
    rw [primaryResult, h2]
    show (if res ≠ [] ∧ strip res ≠ [] then some (strip res) else none)
        = some (strip res)
    rw [if_pos ⟨hres, h3⟩]
  rw [text_to_ipa, if_neg h1, hp]

theorem C2_witness :
    text_to_ipa (some (fun _ => some (" kæt ".data))) none (" hi ".data)
      ("-".data) = Except.ok ("kæt".data) :=
  C2_primary_wins (fun _ => some (" kæt ".data)) none (" hi ".data)
    ("-".data) (" kæt ".data) (by decide) rfl (by decide)

/-- C7: with no primary converter, the default separator, and any
dictionary mapping `"cat"` to the single candidate `"K AE1 T"`, converting
the phrase `"cat"` yields exactly `"k æ t"`. -/
theorem C7_cat_scenario (pr : Str → List Str)
    (h : pr ("cat".data) = [("K AE1 T".data)]) :
    text_to_ipa none (some pr) ("cat".data) ([' ']) =
      Except.ok ("k æ t".data) := by
  have h0 : pr (pylower ("cat".data)) = [("K AE1 T".data)] := h
  have h1 : words_to_ipa_loop pr [("cat".data)] = [("k æ t".data)] := by
    rw [words_to_ipa_loop_eq_map]
    simp only [List.map_cons, List.map_nil]
    rw [h0]
    decide
  have key : text_to_ipa none (some pr) ("cat".data) ([' ']) =
      Except.ok (joinSep [' '] (pysplit (joinSep [' ']
        (words_to_ipa_loop pr [("cat".data)])))) := rfl
  rw [key, h1]
  decide

theorem C7_witness :
    text_to_ipa none (some dictCat) ("cat".data) ([' ']) =
      Except.ok ("k æ t".data) :=
  C7_cat_scenario dictCat (by decide)

/-- C1, counterexample: on the fallback path with separator `"-"` and the
word `"cat"` (one word, three phones), the program returns `"k-æ-t"`,
whereas joining the per-word fallback outputs with the separator — the
claim's "separator only between words, intra-word phone spacing
preserved" — would give `"k æ t"`. -/
theorem C1_counterexample :
    text_to_ipa none (some dictCat) ("cat".data) ("-".data) ≠
      Except.ok (joinSep ("-".data)
        (words_to_ipa_loop dictCat (wordsOf (strip ("cat".data))))) ∧
    text_to_ipa none (some dictCat) ("cat".data) ("-".data) =
      Except.ok ("k-æ-t".data) ∧
    joinSep ("-".data) (words_to_ipa_loop dictCat (wordsOf (strip ("cat".data))))
      = ("k æ t".data) := by
  decide

/-- C1, amended: the fallback re-delimiting replaces every
space-delimited token boundary of the fallback output — the boundaries
between the translated phones inside a word as well as those between
words — with the caller-supplied separator: the result is the
separator-join of the concatenated per-word token lists (so intra-word
phone spacing is preserved only when the separator is itself a single
space).  Stated for dictionaries whose used candidates contain no
all-digit phone symbols (an all-digit phone translates to the empty
string, which the whitespace re-split drops). -/
theorem C1_redelimit_all_tokens (pr : Str → List Str) (text sep : Str)
    (H : ∀ w ∈ wordsOf (strip text), ∀ p ∈ (pr (pylower w)).take 1,
           ∀ s ∈ pysplit p, s.filter (fun c => !c.isDigit) ≠ []) :
    text_to_ipa none (some pr) text sep =
      Except.ok (joinSep sep ((wordsOf (strip text)).flatMap (wordTokens pr))) := by
  by_cases hs : strip text = []
  · rw [text_to_ipa, if_pos hs, hs]
    rfl
  · have key : text_to_ipa none (some pr) text sep =
        Except.ok (joinSep sep (pysplit (joinSep [' ']
          (words_to_ipa_loop pr (wordsOf (strip text)))))) := by
      rw [text_to_ipa, if_neg hs]
      rfl
    rw [key, words_to_ipa_loop_eq_map, pysplit_joinSep_space, List.flatMap_map]
    refine congrArg Except.ok (congrArg (joinSep sep) (flatMap_congr_mem ?_))
    intro w hw
    have hm := (List.mem_filter.mp hw).1
    exact pysplit_wordOut (pysplit_tokens hm).1 (pysplit_tokens hm).2 (H w hw)

theorem C1_amended_witness :
    text_to_ipa none (some dictCat) ("cat".data) ("-".data) =
      Except.ok (joinSep ("-".data)
        ((wordsOf (strip ("cat".data))).flatMap (wordTokens dictCat))) :=
  C1_redelimit_all_tokens dictCat ("cat".data) ("-".data) (by decide)

/-- C10: invoking the CLI with `--text ""` and no `--file` is dispatched
exactly as if `--text` were absent — help is printed to stderr and the
process exits with code 2, rather than converting the empty phrase. -/
theorem C10_empty_text_usage_error :
    main_route (some []) none = CliOutcome.helpExit 2 ∧
    ∀ fileArg : Option Str, main_route (some []) fileArg = main_route none fileArg := by
  refine ⟨rfl, ?_⟩
  intro fileArg
  cases fileArg <;> rfl

theorem C10_witness :
    main_route (some []) (some ("phrases.txt".data)) =
      main_route none (some ("phrases.txt".data)) :=
  C10_empty_text_usage_error.2 (some ("phrases.txt".data))
